import Mathlib

/-!
Shallow embedding of the dgmt file-synchronization daemon core
(src/dgmt/core/watcher.py, daemon.py, shutdown.py and
src/dgmt/backends/syncthing.py), together with theorems settling the
specification claims about the change aggregator, debounce timing,
config hot reload, shutdown handling, sync coordination, health
monitoring and the syncthing idle predicate.
-/

namespace Dgmt

/-! ### Paths and small set/dict helpers

Python `set` and `dict` are modelled as duplicate-free lists and
association lists; only membership and key lookup matter to the claims.
A filesystem path is modelled as its list of components (the result of
`Path(p).parts`).
-/

abbrev FsPath := List String

/-- `set.add`: insert if absent (Python set add). -/
def addElem (s : List FsPath) (x : FsPath) : List FsPath :=
  if x ∈ s then s else s ++ [x]

/-- `set.discard`: remove an element (Python set discard). -/
def removeElem (s : List FsPath) (x : FsPath) : List FsPath :=
  s.filter (fun y => y ≠ x)

/-- `d[k] = v` on an association list (Python dict assignment; position
of an overwritten key is irrelevant to the claims, which only inspect
membership). -/
def assocSet {α β : Type} [DecidableEq α] (m : List (α × β)) (k : α) (v : β) :
    List (α × β) :=
  m.filter (fun kv => kv.1 ≠ k) ++ [(k, v)]

/-! ### ChangeSet and event tracking — `DebouncedHandler` in watcher.py -/

/-- `ChangeSet` from watcher.py: accumulated file changes during one
debounce period. `renamed` maps old path to new path. -/
structure ChangeSet where
  created : List FsPath
  modified : List FsPath
  deleted : List FsPath
  renamed : List (FsPath × FsPath)
deriving DecidableEq, Repr

/-- The empty change set (period start / after `clear()`). -/
def ChangeSet.empty : ChangeSet := ⟨[], [], [], []⟩

/-- The four watchdog file-event kinds handled by `_track_event`
(`FileMovedEvent`, `FileCreatedEvent`, `FileDeletedEvent`,
`FileModifiedEvent`). Directory events return early in `on_any_event`
and never reach tracking, so they are not modelled. -/
inductive FsEvent where
  | moved (src dest : FsPath)
  | fileCreated (src : FsPath)
  | fileDeleted (src : FsPath)
  | fileModified (src : FsPath)
deriving DecidableEq, Repr

/-- `event.src_path`. -/
def FsEvent.src : FsEvent → FsPath
  | .moved s _ => s
  | .fileCreated s => s
  | .fileDeleted s => s
  | .fileModified s => s

/-- `DebouncedHandler._track_event`, translated clause by clause. -/
def trackEvent (cs : ChangeSet) (e : FsEvent) : ChangeSet :=
  match e with
  | .moved src dest =>
      -- renamed[src] = dest; if src in created: move the entry to dest;
      -- deleted.discard(dest)
      let renamed := assocSet cs.renamed src dest
      let created :=
        if src ∈ cs.created then addElem (removeElem cs.created src) dest
        else cs.created
      let deleted := removeElem cs.deleted dest
      { cs with renamed := renamed, created := created, deleted := deleted }
  | .fileCreated src =>
      -- created.add(src); if src in deleted: deleted.discard(src),
      -- modified.add(src)
      let created := addElem cs.created src
      if src ∈ cs.deleted then
        { cs with created := created,
                  deleted := removeElem cs.deleted src,
                  modified := addElem cs.modified src }
      else { cs with created := created }
  | .fileDeleted src =>
      -- if src in created: created.discard(src) else deleted.add(src);
      -- modified.discard(src)
      let cs1 :=
        if src ∈ cs.created then { cs with created := removeElem cs.created src }
        else { cs with deleted := addElem cs.deleted src }
      { cs1 with modified := removeElem cs1.modified src }
  | .fileModified src =>
      -- if src not in created: modified.add(src)
      if src ∈ cs.created then cs
      else { cs with modified := addElem cs.modified src }

/-- Deliver a sequence of tracked events to one change set. -/
def applyEvents (cs : ChangeSet) (es : List FsEvent) : ChangeSet :=
  es.foldl trackEvent cs

def dotStr : String := "."

def dotdotStr : String := ".."

def dotChar : Char := '.'

/-- `part.startswith(".")`: the first character is a dot. -/
def startsWithDot (s : String) : Bool :=
  match s.data with
  | [] => false
  | c :: _ => c == dotChar

/-- `DebouncedHandler.DEFAULT_IGNORE`. -/
def defaultIgnore : List String :=
  [ ".git", ".obsidian", "__pycache__", ".sync", ".stfolder", ".stversions"]

/-- `DebouncedHandler._should_ignore`: a path is ignored when some
component is in the ignore set, or starts with a dot and is neither
`.` nor `..`. -/
def shouldIgnore (ign : List String) (p : FsPath) : Bool :=
  p.any (fun part =>
    ign.contains part ||
      (startsWithDot part && !(part == dotStr) && !(part == dotdotStr)))

/-- The recording part of `DebouncedHandler.on_any_event`: events whose
source path is ignored are dropped before tracking. Note the code only
checks `event.src_path`. -/
def processEvent (ign : List String) (cs : ChangeSet) (e : FsEvent) : ChangeSet :=
  if shouldIgnore ign e.src then cs else trackEvent cs e

/-- Deliver a sequence of raw events through the ignore filter. -/
def applyProcessed (ign : List String) (cs : ChangeSet) (es : List FsEvent) :
    ChangeSet :=
  es.foldl (processEvent ign) cs

/-- The claim-C1 invariant as a predicate: `p` lies in at most one of
the created/modified/deleted sets of a change set. -/
def pathInAtMostOne (cs : ChangeSet) (p : FsPath) : Bool :=
  match (decide (p ∈ cs.created) : Bool), (decide (p ∈ cs.modified) : Bool),
        (decide (p ∈ cs.deleted) : Bool) with
  | true, true, _ => false
  | true, _, true => false
  | _, true, true => false
  | _, _, _ => true

/-! ### Debounce timing — `DebouncedHandler.on_any_event` timer logic

Time is in whole seconds. The state mirrors `DebounceState`: the period
start stamp and the pending timer, the latter stored as the absolute
time at which it would fire. A pending timer whose fire time has passed
fired before the next event was delivered.
-/

structure DebCfg where
  debounce : Nat
  maxWait : Nat
deriving DecidableEq, Repr

structure DebSt where
  firstEvent : Option Nat
  timer : Option Nat
deriving DecidableEq, Repr

/-- One qualifying event at time `t`: first, an already-expired pending
timer fires (snapshot-and-clear resets the period). Then, per
`on_any_event`: stamp period start if first of the period, cancel the
pending timer, fire immediately when elapsed-since-start reaches
`max_wait_seconds`, otherwise schedule a timer `debounce_seconds`
ahead. Returns the new state and the trigger times emitted. -/
def debStep (cfg : DebCfg) (s : DebSt) (t : Nat) : DebSt × List Nat :=
  let pre : DebSt × List Nat :=
    match s.timer with
    | some ft => if ft ≤ t then (⟨none, none⟩, [ft]) else (s, [])
    | none => (s, [])
  let s1 := pre.1
  let fired := pre.2
  let first := s1.firstEvent.getD t
  if cfg.maxWait ≤ t - first then
    (⟨none, none⟩, fired ++ [t])
  else
    (⟨some first, some (t + cfg.debounce)⟩, fired)

/-- Run a time-sorted list of qualifying events from the idle state and
collect every trigger time; a timer still pending at the end fires
undisturbed. -/
def fireTimes (cfg : DebCfg) (events : List Nat) : List Nat :=
  let res := events.foldl
    (fun (acc : DebSt × List Nat) t =>
      let st := debStep cfg acc.1 t
      (st.1, acc.2 ++ st.2))
    (⟨none, none⟩, [])
  match res.1.timer with
  | some ft => res.2 ++ [ft]
  | none => res.2

/-! ### Shutdown handling — `ShutdownHandler` in shutdown.py

Cleanup callbacks are identified by their registration index; `raises`
tells which callbacks raise when run. The log records main-callback
runs, the ids of executed cleanup callbacks in execution order, and the
ids whose errors were logged.
-/

structure ShutdownSt where
  eventSet : Bool
  installed : Bool
  cleanups : List Nat
  hasMainCb : Bool
deriving DecidableEq, Repr

structure ShutdownLog where
  mainRuns : Nat
  cleanupRuns : List Nat
  loggedErrors : List Nat
deriving DecidableEq, Repr

def ShutdownLog.empty : ShutdownLog := ⟨0, [], []⟩

/-- `ShutdownHandler._run_cleanup`: run every registered callback in
registration order; a raising callback is logged and does not stop the
rest. -/
def runCleanup (raises : Nat → Bool) (st : ShutdownSt) (log : ShutdownLog) :
    ShutdownLog :=
  { log with cleanupRuns := log.cleanupRuns ++ st.cleanups,
             loggedErrors := log.loggedErrors ++ st.cleanups.filter raises }

/-- `ShutdownHandler.trigger_shutdown`: return if the event latch is
set; otherwise set it, run the main shutdown callback (exceptions
caught), then run the cleanup list. -/
def triggerShutdown (raises : Nat → Bool) (p : ShutdownSt × ShutdownLog) :
    ShutdownSt × ShutdownLog :=
  let st := p.1
  let log := p.2
  if st.eventSet then (st, log)
  else
    let st1 := { st with eventSet := true }
    let log1 := if st.hasMainCb then { log with mainRuns := log.mainRuns + 1 }
                else log
    (st1, runCleanup raises st1 log1)

/-- `n` sequential calls to `trigger_shutdown`. -/
def triggerN (raises : Nat → Bool) : Nat → ShutdownSt × ShutdownLog →
    ShutdownSt × ShutdownLog
  | 0, p => p
  | n + 1, p => triggerN raises n (triggerShutdown raises p)

/-- `ShutdownHandler.install`: registers `_run_cleanup` with `atexit`
(modelled by the `installed` flag consulted at process exit). -/
def installHandler (st : ShutdownSt) : ShutdownSt :=
  if st.installed then st else { st with installed := true }

/-- Process exit: the `atexit` hook registered by `install` invokes
`_run_cleanup` directly, with no latch check. -/
def atexitRun (raises : Nat → Bool) (st : ShutdownSt) (log : ShutdownLog) :
    ShutdownLog :=
  if st.installed then runCleanup raises st log else log

def noRaise : Nat → Bool := fun _ => false

/-! ### Config hot reload — `Daemon._reload_config` in daemon.py

`Config()` loading, `get_backend("syncthing", ...)` and
`get_backend("rclone", ...)` are the fallible steps; they are supplied
as `Except` values in the environment. Backend instances are abstract
tokens. The watcher is represented by the list of paths it watches.
-/

structure RCfg where
  watchPaths : List String
  debounce : Nat
  maxWait : Nat
  rcloneEnabled : Bool
  settingsTag : Nat
deriving DecidableEq, Repr

structure DaemonState where
  config : RCfg
  watcherPaths : Option (List String)
  backends : List (String × Nat)
deriving DecidableEq, Repr

structure ReloadEnv where
  loadResult : Except Unit RCfg
  mkSyncthing : RCfg → Except Unit Nat
  mkRclone : RCfg → Except Unit Nat

def syncthingName : String := "syncthing"

def rcloneName : String := "rclone"

/-- `Daemon._init_backends`: install the syncthing backend, then the
rclone backend when enabled. An exception from `get_backend` leaves the
mutations already performed in place; the boolean reports that an error
escaped (to be caught and logged by the caller). -/
def initBackends (env : ReloadEnv) (st : DaemonState) : DaemonState × Bool :=
  match env.mkSyncthing st.config with
  | Except.error _ => (st, true)
  | Except.ok b =>
    let st1 := { st with backends := assocSet st.backends syncthingName b }
    if st1.config.rcloneEnabled then
      match env.mkRclone st1.config with
      | Except.error _ => (st1, true)
      | Except.ok rb =>
        ({ st1 with backends := assocSet st1.backends rcloneName rb }, false)
    else (st1, false)

/-- Set equality of the old and new watch-path lists (empty symmetric
difference, i.e. `added` and `removed` both empty). -/
def samePathSet (a b : List String) : Bool :=
  a.all (fun x => b.contains x) && b.all (fun x => a.contains x)

/-- `Daemon._reload_config`: load the new config (on failure the caught
error is logged and nothing changed); assign `self._config`; rebuild
the watcher when the watch-path set changed; reinitialize backends.
Any error after the assignment leaves the partially-applied state in
place; the boolean reports that an error was logged. -/
def reloadConfig (env : ReloadEnv) (st : DaemonState) : DaemonState × Bool :=
  match env.loadResult with
  | Except.error _ => (st, true)
  | Except.ok newCfg =>
    let st1 := { st with config := newCfg }
    let st2 :=
      if samePathSet st.config.watchPaths newCfg.watchPaths then st1
      else { st1 with watcherPaths := some newCfg.watchPaths }
    initBackends env st2

/-! ### Sync coordination — `Daemon._sync_all` in daemon.py

The run is recorded as a trace of observable actions on the backends.
-/

inductive SyncAction where
  | checkIdle (result : Bool)
  | waitForIdle (success : Bool)
  | warnBusy
  | syncPath (p : String)
deriving DecidableEq, Repr

structure SyncEnv where
  rclonePresent : Bool
  syncthingPresent : Bool
  idleNow : Bool
  waitResult : Bool
  watchPaths : List String
deriving Repr

/-- `Daemon._sync_all`: skip everything without rclone; otherwise, if a
syncthing backend is present and not idle, wait for idle with a bounded
timeout and log a warning on timeout; then invoke `rclone.sync` for
each configured watch path (per-path errors are caught, so every path
is attempted). -/
def syncAll (env : SyncEnv) : List SyncAction :=
  if env.rclonePresent then
    (if env.syncthingPresent then
      if env.idleNow then [SyncAction.checkIdle true]
      else
        [SyncAction.checkIdle false, SyncAction.waitForIdle env.waitResult] ++
          (if env.waitResult then [] else [SyncAction.warnBusy])
    else []) ++ env.watchPaths.map SyncAction.syncPath
  else []

/-- The paths synced by a trace, in order. -/
def syncTargets (l : List SyncAction) : List String :=
  l.filterMap (fun a => match a with
    | SyncAction.syncPath p => some p
    | _ => none)

/-- True when the first sync-or-wait action of the trace is not a sync:
no sync is invoked before the idle wait has resolved. -/
def noSyncBeforeWait : List SyncAction → Bool
  | [] => true
  | SyncAction.syncPath _ :: _ => false
  | SyncAction.waitForIdle _ :: _ => true
  | _ :: rest => noSyncBeforeWait rest

/-! ### Health monitoring — `Daemon._health_check_loop` in daemon.py -/

inductive HealthAction where
  | checkHealth (result : Bool)
  | startBackend (result : Bool)
  | restartBackend (result : Bool)
deriving DecidableEq, Repr

/-- One loop iteration: when `restart_syncthing_on_failure` is set,
check health; on failure, restart (the result is logged either way and
the loop continues). -/
def healthIter (flag : Bool) (c : Bool × Bool) : List HealthAction :=
  if flag then
    HealthAction.checkHealth c.1 ::
      (if c.1 then [] else [HealthAction.restartBackend c.2])
  else []

/-- The loop body over successive iterations; each pair carries the
`is_healthy()` result and the `restart()` result that would be
observed at that iteration. -/
def healthLoopTrace (flag : Bool) (checks : List (Bool × Bool)) :
    List HealthAction :=
  checks.flatMap (healthIter flag)

/-- The startup phase before the loop: an unhealthy backend gets a
`start()`, not a `restart()`. -/
def healthStartup (flag : Bool) (initHealthy startRes : Bool) :
    List HealthAction :=
  if flag then
    HealthAction.checkHealth initHealthy ::
      (if initHealthy then [] else [HealthAction.startBackend startRes])
  else []

/-- True when the trace is a sequence of blocks, each either a healthy
check alone or a failed check immediately followed by one restart. -/
def loopShape : List HealthAction → Bool
  | [] => true
  | HealthAction.checkHealth true :: rest => loopShape rest
  | HealthAction.checkHealth false :: HealthAction.restartBackend _ :: rest =>
      loopShape rest
  | _ => false

/-- Number of restart calls in a trace. -/
def restartCount (l : List HealthAction) : Nat :=
  l.countP (fun a => match a with
    | HealthAction.restartBackend _ => true
    | _ => false)

/-- Number of health checks in a trace. -/
def checkCount (l : List HealthAction) : Nat :=
  l.countP (fun a => match a with
    | HealthAction.checkHealth _ => true
    | _ => false)

/-! ### Syncthing idle predicate — `SyncthingBackend.is_idle` /
`wait_for_idle` in backends/syncthing.py -/

def idleStr : String := "idle"

def errorStr : String := "error"

/-- `SyncthingBackend.is_idle`: true when the backend is unhealthy
(cannot check, assume idle), when no folder statuses were retrieved, or
when every folder state is `idle` or `error`. -/
def isIdle (healthy : Bool) (statuses : List (String × String)) : Bool :=
  if !healthy then true
  else if statuses.isEmpty then true
  else statuses.all (fun fs => fs.2 == idleStr || fs.2 == errorStr)

/-- `SyncthingBackend.wait_for_idle`: poll `is_idle` until it returns
true or the bounded timeout exhausts the polls; returns whether
idleness was observed. Each list entry is the `(healthy, statuses)`
pair a poll would observe. -/
def waitForIdlePolls : List (Bool × List (String × String)) → Bool
  | [] => false
  | p :: rest => if isIdle p.1 p.2 then true else waitForIdlePolls rest

/-! ### Helper lemmas on the set operations -/

theorem mem_addElem_iff {s : List FsPath} {x y : FsPath} :
    x ∈ addElem s y ↔ x ∈ s ∨ x = y := by
  unfold addElem
  split
  · constructor
    · exact fun hx => Or.inl hx
    · rintro (hx | rfl)
      · exact hx
      · assumption
  · simp [List.mem_append]

theorem mem_removeElem_iff {s : List FsPath} {x y : FsPath} :
    x ∈ removeElem s y ↔ x ∈ s ∧ x ≠ y := by
  simp [removeElem]

theorem self_mem_addElem (s : List FsPath) (x : FsPath) : x ∈ addElem s x :=
  mem_addElem_iff.2 (Or.inr rfl)

theorem not_mem_removeElem_self (s : List FsPath) (x : FsPath) :
    x ∉ removeElem s x := by
  intro h
  exact (mem_removeElem_iff.1 h).2 rfl

/-! ### Disjointness of created and deleted (claim C1, amended part) -/

/-- One tracked event preserves disjointness of `created` and
`deleted`. -/
theorem trackEvent_cd_disjoint (cs : ChangeSet) (e : FsEvent)
    (h : ∀ x, x ∈ cs.created → x ∉ cs.deleted) :
    ∀ x, x ∈ (trackEvent cs e).created → x ∉ (trackEvent cs e).deleted := by
  cases e with
  | moved src dest =>
    intro x hx hxd
    simp only [trackEvent] at hx hxd
    rw [mem_removeElem_iff] at hxd
    by_cases hsrc : src ∈ cs.created
    · rw [if_pos hsrc, mem_addElem_iff] at hx
      rcases hx with hx | rfl
      · exact h x (mem_removeElem_iff.1 hx).1 hxd.1
      · exact hxd.2 rfl
    · rw [if_neg hsrc] at hx
      exact h x hx hxd.1
  | fileCreated src =>
    intro x hx hxd
    by_cases hd : src ∈ cs.deleted
    · simp only [trackEvent, if_pos hd] at hx hxd
      rw [mem_addElem_iff] at hx
      rw [mem_removeElem_iff] at hxd
      rcases hx with hx | rfl
      · exact h x hx hxd.1
      · exact hxd.2 rfl
    · simp only [trackEvent, if_neg hd] at hx hxd
      rw [mem_addElem_iff] at hx
      rcases hx with hx | rfl
      · exact h x hx hxd
      · exact hd hxd
  | fileDeleted src =>
    intro x hx hxd
    by_cases hc : src ∈ cs.created
    · simp only [trackEvent, if_pos hc] at hx hxd
      exact h x (mem_removeElem_iff.1 hx).1 hxd
    · simp only [trackEvent, if_neg hc] at hx hxd
      rw [mem_addElem_iff] at hxd
      rcases hxd with hxd | rfl
      · exact h x hx hxd
      · exact hc hx
  | fileModified src =>
    intro x hx hxd
    by_cases hc : src ∈ cs.created
    · simp only [trackEvent, if_pos hc] at hx hxd
      exact h x hx hxd
    · simp only [trackEvent, if_neg hc] at hx hxd
      exact h x hx hxd

/-- Disjointness of `created` and `deleted` over whole event
sequences. -/
theorem applyEvents_cd_disjoint (es : List FsEvent) (cs : ChangeSet)
    (h : ∀ x, x ∈ cs.created → x ∉ cs.deleted) :
    ∀ x, x ∈ (applyEvents cs es).created → x ∉ (applyEvents cs es).deleted := by
  induction es generalizing cs with
  | nil => exact h
  | cons e es ih => exact ih (trackEvent cs e) (trackEvent_cd_disjoint cs e h)

/-- Claim C1, counterexample: deliver `delete(p)` then `create(p)` to a
fresh change set. The path ends up in both `created` and `modified`
(the create handler adds to `created` unconditionally), so it is not in
at most one of the three sets, and it is not recorded as modified only. -/
theorem c1_counterexample :
    pathInAtMostOne
        (applyEvents ChangeSet.empty
          [FsEvent.fileDeleted [ "p" ], FsEvent.fileCreated [ "p" ]])
        [ "p" ] = false ∧
    [ "p" ] ∈ (applyEvents ChangeSet.empty
        [FsEvent.fileDeleted [ "p" ], FsEvent.fileCreated [ "p" ]]).created ∧
    [ "p" ] ∈ (applyEvents ChangeSet.empty
        [FsEvent.fileDeleted [ "p" ], FsEvent.fileCreated [ "p" ]]).modified := by
  decide

/-- Claim C1 (amended): over any event sequence delivered to a fresh
change set, each path is in at most one of `created` and `deleted`; but
a path can be in `created` and `modified` simultaneously — in
particular, `delete(p)` then `create(p)` within one period leaves `p`
recorded in both `created` and `modified` (and not in `deleted`). -/
theorem c1_invariant_amended :
    (∀ (es : List FsEvent) (p : FsPath),
        p ∈ (applyEvents ChangeSet.empty es).created →
          p ∉ (applyEvents ChangeSet.empty es).deleted) ∧
    applyEvents ChangeSet.empty
        [FsEvent.fileDeleted [ "p" ], FsEvent.fileCreated [ "p" ]] =
      ⟨[[ "p" ]], [[ "p" ]], [], []⟩ := by
  constructor
  · intro es p
    refine applyEvents_cd_disjoint es ChangeSet.empty ?_ p
    intro x hx
    simp [ChangeSet.empty] at hx
  · decide

/-- Witness for C1 (amended) at a concrete input. -/
theorem c1_invariant_amended_witness :
    [ "q" ] ∉ (applyEvents ChangeSet.empty
        [FsEvent.fileCreated [ "q" ]]).deleted :=
  c1_invariant_amended.1 [FsEvent.fileCreated [ "q" ]] [ "q" ] (by decide)

/-! ### Claim C2: rename of a just-created path -/

/-- Claim C2, counterexample: `create(a)` then `rename(a→b)` leaves the
pair `(a, b)` recorded in `renamed` (the code records
`renamed[src] = dest` unconditionally), so `a` is not absent from all
sets. -/
theorem c2_counterexample :
    (applyEvents ChangeSet.empty
        [FsEvent.fileCreated [ "a" ], FsEvent.moved [ "a" ] [ "b" ]]).created =
      [[ "b" ]] ∧
    ([ "a" ], [ "b" ]) ∈ (applyEvents ChangeSet.empty
        [FsEvent.fileCreated [ "a" ], FsEvent.moved [ "a" ] [ "b" ]]).renamed := by
  decide

/-- Claim C2 (amended): `create(a)` then `rename(a→b)` (with `a ≠ b`)
in one period yields `b` in `created`, with `a` absent from `created`,
`modified` and `deleted`; however the rename is still recorded, so
`renamed` maps `a` to `b`. -/
theorem c2_rename_of_created_amended (a b : FsPath) (hab : a ≠ b) :
    (applyEvents ChangeSet.empty
        [FsEvent.fileCreated a, FsEvent.moved a b]).created = [b] ∧
    a ∉ (applyEvents ChangeSet.empty
        [FsEvent.fileCreated a, FsEvent.moved a b]).created ∧
    a ∉ (applyEvents ChangeSet.empty
        [FsEvent.fileCreated a, FsEvent.moved a b]).modified ∧
    a ∉ (applyEvents ChangeSet.empty
        [FsEvent.fileCreated a, FsEvent.moved a b]).deleted ∧
    (applyEvents ChangeSet.empty
        [FsEvent.fileCreated a, FsEvent.moved a b]).renamed = [(a, b)] := by
  have hcs : applyEvents ChangeSet.empty
      [FsEvent.fileCreated a, FsEvent.moved a b] = ⟨[b], [], [], [(a, b)]⟩ := by
    simp [applyEvents, trackEvent, ChangeSet.empty, addElem, removeElem, assocSet]
  rw [hcs]
  refine ⟨rfl, by simp [hab], by simp, by simp, rfl⟩

/-- Witness for C2 (amended) at a concrete input. -/
theorem c2_rename_of_created_amended_witness :
    (applyEvents ChangeSet.empty
        [FsEvent.fileCreated [ "a" ], FsEvent.moved [ "a" ] [ "b" ]]).created =
      [[ "b" ]] ∧
    [ "a" ] ∉ (applyEvents ChangeSet.empty
        [FsEvent.fileCreated [ "a" ], FsEvent.moved [ "a" ] [ "b" ]]).modified :=
  ⟨(c2_rename_of_created_amended [ "a" ] [ "b" ] (by decide)).1,
   (c2_rename_of_created_amended [ "a" ] [ "b" ] (by decide)).2.2.1⟩

/-! ### Claim C6: create then delete is a net no-op -/

/-- Tracking a create event leaves `renamed` unchanged. -/
theorem trackEvent_fileCreated_renamed (cs : ChangeSet) (p : FsPath) :
    (trackEvent cs (FsEvent.fileCreated p)).renamed = cs.renamed := by
  simp only [trackEvent]
  split <;> rfl

/-- Tracking a delete event leaves `renamed` unchanged. -/
theorem trackEvent_fileDeleted_renamed (cs : ChangeSet) (p : FsPath) :
    (trackEvent cs (FsEvent.fileDeleted p)).renamed = cs.renamed := by
  simp only [trackEvent]
  split <;> rfl

/-- Claim C6: from any accumulated state in which `p` does not occur in
`renamed`, `create(p)` followed by `delete(p)` within the same period
leaves `p` absent from `created`, `modified`, `deleted` and `renamed`
(both as rename source and as rename destination). -/
theorem c6_create_then_delete (cs : ChangeSet) (p : FsPath)
    (hsrc : ∀ q, (p, q) ∉ cs.renamed) (hdst : ∀ q, (q, p) ∉ cs.renamed) :
    p ∉ (trackEvent (trackEvent cs (FsEvent.fileCreated p))
          (FsEvent.fileDeleted p)).created ∧
    p ∉ (trackEvent (trackEvent cs (FsEvent.fileCreated p))
          (FsEvent.fileDeleted p)).modified ∧
    p ∉ (trackEvent (trackEvent cs (FsEvent.fileCreated p))
          (FsEvent.fileDeleted p)).deleted ∧
    (∀ q, (p, q) ∉ (trackEvent (trackEvent cs (FsEvent.fileCreated p))
          (FsEvent.fileDeleted p)).renamed) ∧
    (∀ q, (q, p) ∉ (trackEvent (trackEvent cs (FsEvent.fileCreated p))
          (FsEvent.fileDeleted p)).renamed) := by
  set cs1 := trackEvent cs (FsEvent.fileCreated p) with hcs1
  have hpc : p ∈ cs1.created := by
    rw [hcs1]
    simp only [trackEvent]
    split <;> exact self_mem_addElem _ _
  have hpd : p ∉ cs1.deleted := by
    rw [hcs1]
    simp only [trackEvent]
    by_cases hd : p ∈ cs.deleted
    · rw [if_pos hd]
      exact not_mem_removeElem_self _ _
    · rw [if_neg hd]
      exact hd
  have hstep : trackEvent cs1 (FsEvent.fileDeleted p) =
      { cs1 with created := removeElem cs1.created p,
                 modified := removeElem cs1.modified p } := by
    simp only [trackEvent, if_pos hpc]
  rw [hstep]
  refine ⟨not_mem_removeElem_self _ _, not_mem_removeElem_self _ _, hpd, ?_, ?_⟩
  · intro q
    have : cs1.renamed = cs.renamed := trackEvent_fileCreated_renamed cs p
    simpa [this] using hsrc q
  · intro q
    have : cs1.renamed = cs.renamed := trackEvent_fileCreated_renamed cs p
    simpa [this] using hdst q

/-- Witness for C6 at a concrete input. -/
theorem c6_create_then_delete_witness :
    [ "p" ] ∉ (trackEvent (trackEvent ChangeSet.empty
        (FsEvent.fileCreated [ "p" ])) (FsEvent.fileDeleted [ "p" ])).created ∧
    [ "p" ] ∉ (trackEvent (trackEvent ChangeSet.empty
        (FsEvent.fileCreated [ "p" ])) (FsEvent.fileDeleted [ "p" ])).deleted :=
  ⟨(c6_create_then_delete ChangeSet.empty [ "p" ]
      (fun _ => List.not_mem_nil _) (fun _ => List.not_mem_nil _)).1,
   (c6_create_then_delete ChangeSet.empty [ "p" ]
      (fun _ => List.not_mem_nil _) (fun _ => List.not_mem_nil _)).2.2.1⟩

/-! ### Claim C5: debounce and forced-flush timing -/

/-- Claim C5: with `debounce_seconds = 30` and a single qualifying
event at `t = 0`, the trigger fires exactly once, at `t = 30`. With
qualifying events every 5 seconds and `max_wait_seconds = 300`, the
first trigger fires at `t = 300` (the timer scheduled by each event is
cancelled by the next, and at `t = 300` the elapsed time since the
period start reaches the maximum wait, so the callback fires
immediately), regardless of continued activity afterwards. -/
theorem c5_debounce_timing :
    fireTimes ⟨30, 300⟩ [0] = [30] ∧
    fireTimes ⟨30, 300⟩ ((List.range 61).map (fun k => 5 * k)) = [300] ∧
    (fireTimes ⟨30, 300⟩ ((List.range 81).map (fun k => 5 * k))).head? =
      some 300 := by
  refine ⟨?_, ?_, ?_⟩
  · set_option maxRecDepth 10000 in decide
  · set_option maxRecDepth 100000 in decide
  · set_option maxRecDepth 100000 in decide

/-! ### Claim C7: ignore-rule completeness -/

/-- An event whose source path is ignored is a complete no-op. -/
theorem processEvent_ignored (ign : List String) (cs : ChangeSet) (e : FsEvent)
    (h : shouldIgnore ign e.src = true) : processEvent ign cs e = cs := by
  simp [processEvent, h]

/-- One filtered event preserves the purity of `modified` and
`deleted`: both sets only ever receive the (non-ignored) source path. -/
theorem processEvent_md_pure (ign : List String) (cs : ChangeSet) (e : FsEvent)
    (hm : ∀ p, p ∈ cs.modified → shouldIgnore ign p = false)
    (hd : ∀ p, p ∈ cs.deleted → shouldIgnore ign p = false) :
    (∀ p, p ∈ (processEvent ign cs e).modified → shouldIgnore ign p = false) ∧
    (∀ p, p ∈ (processEvent ign cs e).deleted → shouldIgnore ign p = false) := by
  by_cases hig : shouldIgnore ign e.src = true
  · rw [processEvent_ignored ign cs e hig]
    exact ⟨hm, hd⟩
  · have hig2 : shouldIgnore ign e.src = false := by
      simpa using hig
    have hpe : processEvent ign cs e = trackEvent cs e := by
      simp [processEvent, hig2]
    rw [hpe]
    cases e with
    | moved src dest =>
      simp only [trackEvent]
      refine ⟨hm, ?_⟩
      intro p hp
      exact hd p (mem_removeElem_iff.1 hp).1
    | fileCreated src =>
      simp only [FsEvent.src] at hig2
      by_cases hdel : src ∈ cs.deleted
      · simp only [trackEvent, if_pos hdel]
        constructor
        · intro p hp
          rcases mem_addElem_iff.1 hp with hp | rfl
          · exact hm p hp
          · exact hig2
        · intro p hp
          exact hd p (mem_removeElem_iff.1 hp).1
      · simp only [trackEvent, if_neg hdel]
        exact ⟨hm, hd⟩
    | fileDeleted src =>
      simp only [FsEvent.src] at hig2
      by_cases hc : src ∈ cs.created
      · simp only [trackEvent, if_pos hc]
        constructor
        · intro p hp
          exact hm p (mem_removeElem_iff.1 hp).1
        · exact hd
      · simp only [trackEvent, if_neg hc]
        constructor
        · intro p hp
          exact hm p (mem_removeElem_iff.1 hp).1
        · intro p hp
          rcases mem_addElem_iff.1 hp with hp | rfl
          · exact hd p hp
          · exact hig2
    | fileModified src =>
      simp only [FsEvent.src] at hig2
      by_cases hc : src ∈ cs.created
      · simp only [trackEvent, if_pos hc]
        exact ⟨hm, hd⟩
      · simp only [trackEvent, if_neg hc]
        constructor
        · intro p hp
          rcases mem_addElem_iff.1 hp with hp | rfl
          · exact hm p hp
          · exact hig2
        · exact hd

/-- Purity of `modified` and `deleted` over whole filtered event
sequences. -/
theorem applyProcessed_md_pure (ign : List String) (es : List FsEvent)
    (cs : ChangeSet)
    (hm : ∀ p, p ∈ cs.modified → shouldIgnore ign p = false)
    (hd : ∀ p, p ∈ cs.deleted → shouldIgnore ign p = false) :
    (∀ p, p ∈ (applyProcessed ign cs es).modified →
        shouldIgnore ign p = false) ∧
    (∀ p, p ∈ (applyProcessed ign cs es).deleted →
        shouldIgnore ign p = false) := by
  induction es generalizing cs with
  | nil => exact ⟨hm, hd⟩
  | cons e es ih =>
    have hstep := processEvent_md_pure ign cs e hm hd
    exact ih (processEvent ign cs e) hstep.1 hstep.2

/-- Claim C7, counterexample: a rename from a non-ignored source to an
ignored destination passes the filter (only `src_path` is checked) and
records the ignored path in `renamed` as destination; the same rename
after a create of the source would also move the ignored path into
`created`. -/
theorem c7_counterexample :
    shouldIgnore defaultIgnore [ ".hidden", "b" ] = true ∧
    (applyProcessed defaultIgnore ChangeSet.empty
        [FsEvent.moved [ "a" ] [ ".hidden", "b" ]]).renamed =
      [([ "a" ], [ ".hidden", "b" ])] ∧
    (applyProcessed defaultIgnore ChangeSet.empty
        [FsEvent.fileCreated [ "a" ], FsEvent.moved [ "a" ] [ ".hidden", "b" ]]).created =
      [[ ".hidden", "b" ]] := by
  refine ⟨by decide, by decide, by decide⟩

/-- Claim C7 (amended): any event whose source path has an ignored or
dot-leading component is dropped before anything is recorded,
independent of event kind, and consequently `modified` and `deleted`
never contain an ignored path; rename destinations, however, are not
checked, so an ignored path can still appear in `renamed` (and in
`created`, via rename of a just-created path). -/
theorem c7_source_filter_amended (ign : List String) :
    (∀ (cs : ChangeSet) (e : FsEvent), shouldIgnore ign e.src = true →
        processEvent ign cs e = cs) ∧
    (∀ (es : List FsEvent) (p : FsPath),
        p ∈ (applyProcessed ign ChangeSet.empty es).modified →
          shouldIgnore ign p = false) ∧
    (∀ (es : List FsEvent) (p : FsPath),
        p ∈ (applyProcessed ign ChangeSet.empty es).deleted →
          shouldIgnore ign p = false) := by
  refine ⟨processEvent_ignored ign, ?_, ?_⟩
  · intro es p
    exact (applyProcessed_md_pure ign es ChangeSet.empty
      (fun p hp => by simp [ChangeSet.empty] at hp)
      (fun p hp => by simp [ChangeSet.empty] at hp)).1 p
  · intro es p
    exact (applyProcessed_md_pure ign es ChangeSet.empty
      (fun p hp => by simp [ChangeSet.empty] at hp)
      (fun p hp => by simp [ChangeSet.empty] at hp)).2 p

/-- Witness for C7 (amended) at a concrete input. -/
theorem c7_source_filter_amended_witness :
    processEvent defaultIgnore ChangeSet.empty
      (FsEvent.fileCreated [ ".git", "x" ]) = ChangeSet.empty :=
  (c7_source_filter_amended defaultIgnore).1 ChangeSet.empty
    (FsEvent.fileCreated [ ".git", "x" ]) (by decide)

/-! ### Claim C3: config hot reload atomicity -/

/-- Claim C3, counterexample: the new configuration loads successfully
but backend reinitialization fails. The error is caught and logged, yet
the in-memory configuration and the watcher have already been replaced,
so the post-reload state differs from the pre-reload state. -/
theorem c3_counterexample :
    (reloadConfig
        { loadResult := Except.ok ⟨[ "B" ], 30, 300, false, 1⟩,
          mkSyncthing := fun _ => Except.error (),
          mkRclone := fun _ => Except.ok 7 }
        ⟨⟨[ "A" ], 30, 300, false, 0⟩, some [ "A" ], [( "syncthing", 5 )]⟩).2 =
      true ∧
    (reloadConfig
        { loadResult := Except.ok ⟨[ "B" ], 30, 300, false, 1⟩,
          mkSyncthing := fun _ => Except.error (),
          mkRclone := fun _ => Except.ok 7 }
        ⟨⟨[ "A" ], 30, 300, false, 0⟩, some [ "A" ], [( "syncthing", 5 )]⟩).1.config ≠
      (⟨[ "A" ], 30, 300, false, 0⟩ : RCfg) ∧
    (reloadConfig
        { loadResult := Except.ok ⟨[ "B" ], 30, 300, false, 1⟩,
          mkSyncthing := fun _ => Except.error (),
          mkRclone := fun _ => Except.ok 7 }
        ⟨⟨[ "A" ], 30, 300, false, 0⟩, some [ "A" ], [( "syncthing", 5 )]⟩).1.watcherPaths ≠
      some [ "A" ] := by
  refine ⟨rfl, by decide, by decide⟩

/-- Claim C3 (amended): if loading the new configuration fails, the
reload leaves the daemon state — configuration, watcher and backend
set — exactly as it was, and the error is logged; an error raised after
a successful load (backend reinitialization) is also logged but leaves
the already-swapped configuration in place. -/
theorem c3_reload_amended (env : ReloadEnv) (st : DaemonState)
    (h : env.loadResult = Except.error ()) :
    reloadConfig env st = (st, true) := by
  simp [reloadConfig, h]

/-- Witness for C3 (amended) at a concrete input. -/
theorem c3_reload_amended_witness :
    reloadConfig
        { loadResult := Except.error (), mkSyncthing := fun _ => Except.ok 0,
          mkRclone := fun _ => Except.ok 0 }
        ⟨⟨[], 30, 300, false, 0⟩, none, []⟩ =
      (⟨⟨[], 30, 300, false, 0⟩, none, []⟩, true) :=
  c3_reload_amended _ _ rfl

/-! ### Claim C4: shutdown idempotence and exactly-once cleanup -/

/-- After a `trigger_shutdown` call the latch is set. -/
theorem triggerShutdown_eventSet (raises : Nat → Bool)
    (p : ShutdownSt × ShutdownLog) :
    (triggerShutdown raises p).1.eventSet = true := by
  by_cases h : p.1.eventSet = true
  · simp [triggerShutdown, h]
  · simp [triggerShutdown, h]

/-- `trigger_shutdown` with the latch already set is a no-op. -/
theorem triggerShutdown_of_set (raises : Nat → Bool)
    (p : ShutdownSt × ShutdownLog) (h : p.1.eventSet = true) :
    triggerShutdown raises p = p := by
  simp [triggerShutdown, h]

/-- Repeated `trigger_shutdown` with the latch set stays a no-op. -/
theorem triggerN_of_set (raises : Nat → Bool) (n : Nat)
    (p : ShutdownSt × ShutdownLog) (h : p.1.eventSet = true) :
    triggerN raises n p = p := by
  induction n with
  | zero => rfl
  | succ n ih =>
    show triggerN raises n (triggerShutdown raises p) = p
    rw [triggerShutdown_of_set raises p h]
    exact ih

/-- Claim C4, counterexample: one cleanup callback is registered, the
handler is installed, `trigger_shutdown` runs once, and the process
exits. The `atexit`-registered `_run_cleanup` bypasses the latch, so
the cleanup callback executes twice. -/
theorem c4_counterexample :
    (atexitRun noRaise
        (triggerShutdown noRaise
          (installHandler ⟨false, false, [0], true⟩, ShutdownLog.empty)).1
        (triggerShutdown noRaise
          (installHandler ⟨false, false, [0], true⟩, ShutdownLog.empty)).2).cleanupRuns =
      [0, 0] := by
  decide

/-- Claim C4 (amended): any number `n ≥ 1` of sequential calls to
`trigger_shutdown` collapses to a single execution: the main shutdown
callback runs once (when registered), the cleanup callbacks run exactly
once each, in registration order, and a raising callback is logged
without preventing later callbacks from running. The `atexit` hook
installed by `install()`, however, invokes the cleanup list again at
process exit without consulting the latch. -/
theorem c4_shutdown_amended (raises : Nat → Bool) (st : ShutdownSt)
    (log : ShutdownLog) (n : Nat) (h0 : st.eventSet = false) (h1 : 1 ≤ n) :
    triggerN raises n (st, log) = triggerShutdown raises (st, log) ∧
    (triggerShutdown raises (st, log)).2.cleanupRuns =
      log.cleanupRuns ++ st.cleanups ∧
    (triggerShutdown raises (st, log)).2.mainRuns =
      log.mainRuns + (if st.hasMainCb then 1 else 0) ∧
    (triggerShutdown raises (st, log)).2.loggedErrors =
      log.loggedErrors ++ st.cleanups.filter raises := by
  have hset : (triggerShutdown raises (st, log)).1.eventSet = true :=
    triggerShutdown_eventSet raises (st, log)
  refine ⟨?_, ?_⟩
  · obtain ⟨m, rfl⟩ : ∃ m, n = m + 1 := ⟨n - 1, by omega⟩
    show triggerN raises m (triggerShutdown raises (st, log)) = _
    exact triggerN_of_set raises m _ hset
  · by_cases hm : st.hasMainCb = true
    · simp [triggerShutdown, runCleanup, h0, hm]
    · simp [triggerShutdown, runCleanup, h0, hm]

/-- Witness for C4 (amended) at a concrete input. -/
theorem c4_shutdown_amended_witness :
    triggerN noRaise 3 (⟨false, true, [0, 1], true⟩, ShutdownLog.empty) =
      triggerShutdown noRaise (⟨false, true, [0, 1], true⟩, ShutdownLog.empty) ∧
    (triggerShutdown noRaise
        (⟨false, true, [0, 1], true⟩, ShutdownLog.empty)).2.cleanupRuns =
      [0, 1] := by
  have h := c4_shutdown_amended noRaise ⟨false, true, [0, 1], true⟩
    ShutdownLog.empty 3 rfl (by decide)
  exact ⟨h.1, by rw [h.2.1]; rfl⟩

/-! ### Claim C8: sync coordination between syncthing and rclone -/

/-- The sync targets of a pure sync suffix are the mapped paths. -/
theorem syncTargets_map (l : List String) :
    syncTargets (l.map SyncAction.syncPath) = l := by
  induction l with
  | nil => rfl
  | cons x xs ih =>
    simpa [syncTargets, List.filterMap_cons] using ih

theorem syncTargets_nil : syncTargets [] = [] := rfl

theorem syncTargets_cons_checkIdle (b : Bool) (l : List SyncAction) :
    syncTargets (SyncAction.checkIdle b :: l) = syncTargets l := by
  simp [syncTargets, List.filterMap_cons]

theorem syncTargets_cons_wait (b : Bool) (l : List SyncAction) :
    syncTargets (SyncAction.waitForIdle b :: l) = syncTargets l := by
  simp [syncTargets, List.filterMap_cons]

theorem syncTargets_cons_warn (l : List SyncAction) :
    syncTargets (SyncAction.warnBusy :: l) = syncTargets l := by
  simp [syncTargets, List.filterMap_cons]

/-- Claim C8: on a trigger, `_sync_all` invokes the rclone sync exactly
once per configured watch path (and not at all without rclone); when
the syncthing backend is present and not idle, no sync is invoked
before the bounded idle wait has resolved; and when that wait times
out, a warning is logged and the syncs still proceed. -/
theorem c8_sync_coordination (env : SyncEnv) :
    syncTargets (syncAll env) =
      (if env.rclonePresent then env.watchPaths else []) ∧
    (env.rclonePresent = true → env.syncthingPresent = true →
      env.idleNow = false →
        noSyncBeforeWait (syncAll env) = true ∧
        (env.waitResult = false → SyncAction.warnBusy ∈ syncAll env)) := by
  obtain ⟨r, s, i, w, paths⟩ := env
  refine ⟨?_, ?_⟩
  · cases r <;> cases s <;> cases i <;> cases w <;>
      simp only [syncAll, Bool.false_eq_true, if_false, if_true,
        Bool.true_eq_false, ite_true, ite_false, List.nil_append,
        List.cons_append, List.append_nil, syncTargets_nil,
        syncTargets_cons_checkIdle, syncTargets_cons_wait,
        syncTargets_cons_warn, syncTargets_map]
  · intro hr hs hi
    subst hr
    subst hs
    subst hi
    cases w
    · exact ⟨by simp [syncAll, noSyncBeforeWait], fun hw => by simp [syncAll]⟩
    · exact ⟨by simp [syncAll, noSyncBeforeWait], fun hw => by simp at hw⟩

/-- Witness for C8 at a concrete input. -/
theorem c8_sync_coordination_witness :
    syncTargets (syncAll ⟨true, true, false, false, [ "a", "b" ]⟩) =
      [ "a", "b" ] ∧
    noSyncBeforeWait (syncAll ⟨true, true, false, false, [ "a", "b" ]⟩) =
      true ∧
    SyncAction.warnBusy ∈ syncAll ⟨true, true, false, false, [ "a", "b" ]⟩ := by
  have h := c8_sync_coordination ⟨true, true, false, false, [ "a", "b" ]⟩
  exact ⟨by simpa using h.1, (h.2 rfl rfl rfl).1, (h.2 rfl rfl rfl).2 rfl⟩

/-! ### Claim C9: health-check loop restart behaviour -/

theorem restartCount_append (a b : List HealthAction) :
    restartCount (a ++ b) = restartCount a + restartCount b := by
  simp [restartCount, List.countP_append]

theorem checkCount_append (a b : List HealthAction) :
    checkCount (a ++ b) = checkCount a + checkCount b := by
  simp [checkCount, List.countP_append]

theorem healthLoopTrace_cons (flag : Bool) (c : Bool × Bool)
    (cs : List (Bool × Bool)) :
    healthLoopTrace flag (c :: cs) =
      healthIter flag c ++ healthLoopTrace flag cs := by
  simp [healthLoopTrace, List.flatMap_cons]

/-- With the restart flag off, the loop performs no backend calls. -/
theorem healthLoopTrace_flag_off (checks : List (Bool × Bool)) :
    healthLoopTrace false checks = [] := by
  induction checks with
  | nil => rfl
  | cons c cs ih =>
    rw [healthLoopTrace_cons, ih]
    simp [healthIter]

/-- The loop trace consists of healthy checks alone and failed checks
each immediately followed by one restart. -/
theorem loopShape_trace (checks : List (Bool × Bool)) :
    loopShape (healthLoopTrace true checks) = true := by
  induction checks with
  | nil => rfl
  | cons c cs ih =>
    obtain ⟨h, r⟩ := c
    rw [healthLoopTrace_cons]
    cases h <;> simpa [healthIter, loopShape] using ih

/-- The loop restarts exactly once per unhealthy check. -/
theorem restartCount_trace (checks : List (Bool × Bool)) :
    restartCount (healthLoopTrace true checks) =
      checks.countP (fun c => !c.1) := by
  induction checks with
  | nil => rfl
  | cons c cs ih =>
    obtain ⟨h, r⟩ := c
    rw [healthLoopTrace_cons, restartCount_append, ih]
    cases h
    · simp [healthIter, restartCount, List.countP_cons, List.countP_nil]
      omega
    · simp [healthIter, restartCount, List.countP_cons, List.countP_nil]

/-- The loop checks health at every iteration, whatever the restart
outcomes were. -/
theorem checkCount_trace (checks : List (Bool × Bool)) :
    checkCount (healthLoopTrace true checks) = checks.length := by
  induction checks with
  | nil => rfl
  | cons c cs ih =>
    obtain ⟨h, r⟩ := c
    rw [healthLoopTrace_cons, checkCount_append, ih]
    cases h
    · simp [healthIter, checkCount, List.countP_cons, List.countP_nil]
      omega
    · simp [healthIter, checkCount, List.countP_cons, List.countP_nil]
      omega

/-- Claim C9: over any sequence of health-check iterations (each pair
giving that iteration's `is_healthy()` result and the `restart()`
outcome that would be observed), the monitor restarts exactly once at
each unhealthy check and never at a healthy one, every iteration's
check happens regardless of restart outcomes (restart failures are
logged, never fatal), and with the restart flag off no backend call is
made at all. -/
theorem c9_health_restart (checks : List (Bool × Bool)) :
    loopShape (healthLoopTrace true checks) = true ∧
    restartCount (healthLoopTrace true checks) =
      checks.countP (fun c => !c.1) ∧
    checkCount (healthLoopTrace true checks) = checks.length ∧
    healthLoopTrace false checks = [] :=
  ⟨loopShape_trace checks, restartCount_trace checks, checkCount_trace checks,
   healthLoopTrace_flag_off checks⟩

/-! ### Claim C10: the syncthing idle predicate under unobservability -/

/-- Claim C10: `is_idle()` returns true whenever the backend is
unhealthy or no folder statuses were retrieved, so `wait_for_idle`
returns true on its very first poll in those situations; and whenever
the daemon observes an idle backend it skips the idle wait entirely
before running the rclone syncs. -/
theorem c10_idle_when_unobservable (healthy : Bool)
    (statuses : List (String × String))
    (polls : List (Bool × List (String × String))) (env : SyncEnv)
    (h : healthy = false ∨ statuses = []) :
    isIdle healthy statuses = true ∧
    waitForIdlePolls ((healthy, statuses) :: polls) = true ∧
    (env.idleNow = true → ∀ b, SyncAction.waitForIdle b ∉ syncAll env) := by
  have hidle : isIdle healthy statuses = true := by
    rcases h with h | h
    · simp [isIdle, h]
    · subst h
      cases healthy <;> simp [isIdle]
  refine ⟨hidle, by simp [waitForIdlePolls, hidle], ?_⟩
  intro hi b hmem
  obtain ⟨r, s, i, w, paths⟩ := env
  subst hi
  cases r <;> cases s <;> simp [syncAll] at hmem

/-- Witness for C10 at a concrete input. -/
theorem c10_idle_when_unobservable_witness :
    isIdle false [( "f", "syncing" )] = true ∧
    waitForIdlePolls [(false, [( "f", "syncing" )])] = true := by
  have h := c10_idle_when_unobservable false [( "f", "syncing" )] []
    ⟨true, true, true, true, []⟩ (Or.inl rfl)
  exact ⟨h.1, h.2.1⟩

end Dgmt
